import Mathlib

/-!
Verification development for the `solar-logo-ticker` web component
(`src/docs/modules/solar-logo-ticker/v1/solar-logo-ticker.js`, also present as
the TypeScript source `src/unnamed/part_001`).

The component is a single state holder (`TickerConfig`, denoting the private
fields `_accent`, `_borderColor`, `_speed`, `_direction`, `_logos`) plus a
renderer.  Rendering and attribute processing are translated here as pure
Lean functions.  JavaScript runtime pieces that the component relies on
(`JSON.parse`, `parseFloat`, property access, truthiness, template-literal
stringification, array spread, `String.prototype.replace` with a string
pattern) are modelled explicitly below; each such definition carries a doc
comment naming the builtin it models.  Exceptions that the code lets escape
are modelled with `Except String`.
-/

/-- The dynamic values the component can hold at runtime.  `JSON.parse` yields
`null`, booleans, numbers, strings, arrays and objects; `undefined` is what
property access on a value lacking that property evaluates to.  Numbers are
modelled as rationals (exact for every literal appearing in the repository). -/
inductive JsValue where
  | undefined
  | null
  | bool (b : Bool)
  | num (q : Rat)
  | str (s : String)
  | arr (elems : List JsValue)
  | obj (fields : List (String × JsValue))

/-- The defined-access part of JavaScript property lookup, for a base value
on which access does not throw (anything but `null`/`undefined`): on an
object literal the last binding of the key wins (as built by `JSON.parse`);
on primitives and arrays the properties the component reads (`name`,
`logo`, `needsGlow`, `scale`) are `undefined`. -/
def jsFieldD (v : JsValue) (k : String) : JsValue :=
  match v with
  | .obj fields => (fields.foldl (fun acc p => if p.1 == k then some p.2 else acc) none).getD .undefined
  | _ => .undefined

/-- Property access on a base value succeeds exactly when the base is not
nullish: JavaScript `null.k` and `undefined.k` throw a `TypeError`. -/
def propAccessOk : JsValue → Bool
  | .null => false
  | .undefined => false
  | _ => true

/-- Models JavaScript property access `v[k]` for the property names the
component reads: a thrown `TypeError` when the base is `null` or
`undefined`, the defined lookup `jsFieldD` otherwise. -/
def jsField (v : JsValue) (k : String) : Except String JsValue :=
  match v with
  | .null => .error ("TypeError: Cannot read properties of null (reading " ++ k ++ ")")
  | .undefined => .error ("TypeError: Cannot read properties of undefined (reading " ++ k ++ ")")
  | _ => .ok (jsFieldD v k)

/-- Models JavaScript truthiness: `undefined`, `null`, `false`, `0` and `""`
are falsy, everything else is truthy.  (`NaN`, also falsy, does not arise:
no `NaN` is representable in the `Rat`-valued model and `JSON.parse` never
produces one.) -/
def truthy : JsValue → Bool
  | .undefined => false
  | .null => false
  | .bool b => b
  | .num q => !(q == 0)
  | .str s => !(s == "")
  | .arr _ => true
  | .obj _ => true

/-- A value is iterable by array spread `[...v]` iff it is an array or a
string; spreading anything else throws a `TypeError`. -/
def iterable : JsValue → Bool
  | .arr _ => true
  | .str _ => true
  | _ => false

/-- Models the array spread `[...items]` used by `createTickerRowContent`:
an array spreads to its elements, a string to its characters, anything else
throws `TypeError: x is not iterable`. -/
def spreadElems : JsValue → Except String (List JsValue)
  | .arr elems => .ok elems
  | .str s => .ok (s.data.map (fun c => .str (String.mk [c])))
  | _ => .error "TypeError: value is not iterable"

/-- Little-endian base-10 digits of a natural number (fuel-indexed so that the
definition reduces in the kernel). -/
def digitsLE : Nat → Nat → List Nat
  | 0, _ => []
  | fuel+1, n => if n = 0 then [] else n % 10 :: digitsLE fuel (n / 10)

/-- Evaluates a little-endian digit list back to a natural number. -/
def valLE (l : List Nat) : Nat := l.foldr (fun d acc => d + 10 * acc) 0

/-- Models the stringification of a nonnegative JavaScript integer (as
interpolated by a template literal, e.g. the `index` in
`` key="${item.name}-${index}" ``): its decimal digits. -/
def jsNatRepr (n : Nat) : String :=
  if n = 0 then "0" else String.mk (((digitsLE (n+1) n).map Nat.digitChar).reverse)

/-- Decimal digits of the fractional part of a rational (used by the
JavaScript number-to-string model; 20 digits of fuel, more than the 17
significant digits JavaScript ever prints). -/
def ratFracDigits : Nat → Rat → List Char
  | 0, _ => []
  | fuel+1, x =>
    if x = 0 then []
    else
      let y := x * 10
      Nat.digitChar y.floor.toNat :: ratFracDigits fuel (y - (y.floor : Rat))

/-- Stringification of a nonnegative rational: integer part, then a dot and
the fractional digits when the fractional part is nonzero. -/
def jsNumToStringAux (q : Rat) : String :=
  let ip : Nat := q.floor.toNat
  let fr : Rat := q - (q.floor : Rat)
  if fr = 0 then jsNatRepr ip
  else jsNatRepr ip ++ "." ++ String.mk (ratFracDigits 20 fr)

/-- Models JavaScript number stringification (template-literal interpolation
of `this._speed`, `item.scale`, ...) for the finite decimal values the
component handles: `90 ↦ "90"`, `1.5 ↦ "1.5"`, `-5 ↦ "-5"`. -/
def jsNumToString (q : Rat) : String :=
  if q < 0 then "-" ++ jsNumToStringAux (-q) else jsNumToStringAux q

mutual

/-- Models JavaScript `String(v)` / template-literal interpolation:
`undefined ↦ "undefined"`, strings unchanged, numbers in decimal, arrays
joined with commas (`null`/`undefined` elements become empty), plain objects
`"[object Object]"`. -/
def jsToString : JsValue → String
  | .undefined => "undefined"
  | .null => "null"
  | .bool b => if b then "true" else "false"
  | .num q => jsNumToString q
  | .str s => s
  | .obj _ => "[object Object]"
  | .arr elems => jsListToString elems

/-- Comma-joined stringification of array elements (`Array.prototype.join`
with the default separator, as `String(array)` performs). -/
def jsListToString : List JsValue → String
  | [] => ""
  | [x] => jsElemToString x
  | x :: xs => jsElemToString x ++ "," ++ jsListToString xs

/-- One element under `Array.prototype.join`: `null` and `undefined` become
the empty string, everything else is stringified. -/
def jsElemToString : JsValue → String
  | .undefined => ""
  | .null => ""
  | v => jsToString v

end

/-- Whitespace skipped by `parseFloat` (the common ASCII whitespace). -/
def isWs (c : Char) : Bool :=
  c = ' ' || c = '\t' || c = '\n' || c = '\r' || c = '\x0b' || c = '\x0c'

/-- Numeric value of a list of decimal digit characters. -/
def digitsToNat (l : List Char) : Nat :=
  l.foldl (fun acc c => acc * 10 + (c.toNat - '0'.toNat)) 0

/-- Exponent suffix of `parseFloat`: an optional sign and digits; an `e`
not followed by digits contributes nothing. -/
def parseFloatExp (rest : List Char) : Int :=
  match rest with
  | '-' :: r2 => let d := r2.takeWhile Char.isDigit; if d = [] then 0 else -(digitsToNat d : Int)
  | '+' :: r2 => let d := r2.takeWhile Char.isDigit; if d = [] then 0 else (digitsToNat d : Int)
  | r2 => let d := r2.takeWhile Char.isDigit; if d = [] then 0 else (digitsToNat d : Int)

/-- Models the JavaScript builtin `parseFloat` on finite decimal inputs:
skips leading whitespace, then reads an optional sign, digits with an
optional fraction, and an optional exponent, ignoring any trailing garbage;
`none` denotes `NaN` (no digits found).  (`"Infinity"`, which real
`parseFloat` also accepts, has no rational denotation and is not modelled;
no claim is decided on such an input.) -/
def parseFloat (s : String) : Option Rat :=
  let cs := s.data.dropWhile isWs
  let (sign, cs1) : Rat × List Char :=
    match cs with
    | '-' :: rest => (-1, rest)
    | '+' :: rest => (1, rest)
    | _ => (1, cs)
  let intDigits := cs1.takeWhile Char.isDigit
  let cs2 := cs1.dropWhile Char.isDigit
  let (fracDigits, cs3) : List Char × List Char :=
    match cs2 with
    | '.' :: rest => (rest.takeWhile Char.isDigit, rest.dropWhile Char.isDigit)
    | _ => ([], cs2)
  if intDigits = [] ∧ fracDigits = [] then none
  else
    let mantissa : Rat :=
      (digitsToNat intDigits : Rat) + (digitsToNat fracDigits : Rat) / ((10 ^ fracDigits.length : Nat) : Rat)
    let expVal : Int :=
      match cs3 with
      | 'e' :: rest => parseFloatExp rest
      | 'E' :: rest => parseFloatExp rest
      | _ => 0
    some (sign * mantissa * (10 : Rat) ^ expVal)

/-- Models the JavaScript idiom `x || d` for a number `x` (here the result of
`parseFloat`): the default is taken when `x` is falsy, i.e. `NaN` (`none`)
or zero. -/
def jsOr (v : Option Rat) (d : Rat) : Rat :=
  match v with
  | none => d
  | some x => if x = 0 then d else x

/-- Worker for `jsReplace` on character lists: replaces the first occurrence
of `pat` by `rep`. -/
def replaceFirstAux (pat rep : List Char) : List Char → List Char
  | [] => if pat.isEmpty then rep else []
  | c :: cs =>
    if pat.isPrefixOf (c :: cs) then rep ++ List.drop pat.length (c :: cs)
    else c :: replaceFirstAux pat rep cs

/-- Models `String.prototype.replace(pat, rep)` with a string `pat` (as used
on line 124 of the source: `this._accent.replace("0.3", "0.1")`): only the
first occurrence is replaced; the string is returned unchanged when the
pattern does not occur. -/
def jsReplace (s pat rep : String) : String :=
  String.mk (replaceFirstAux pat.data rep.data s.data)

/-- Whitespace accepted between JSON tokens (RFC 8259 / `JSON.parse`). -/
def jsonWs (c : Char) : Bool :=
  c = ' ' || c = '\t' || c = '\n' || c = '\r'

/-- Skips JSON whitespace. -/
def skipWs (cs : List Char) : List Char := cs.dropWhile jsonWs

/-- Hexadecimal digit value, for `\uXXXX` escapes. -/
def hexVal (c : Char) : Option Nat :=
  if c.isDigit then some (c.toNat - '0'.toNat)
  else if 'a' ≤ c ∧ c ≤ 'f' then some (c.toNat - 'a'.toNat + 10)
  else if 'A' ≤ c ∧ c ≤ 'F' then some (c.toNat - 'A'.toNat + 10)
  else none

/-- Single-character JSON string escapes. -/
def escapeChar : Char → Option Char
  | '"' => some '"'
  | '\\' => some '\\'
  | '/' => some '/'
  | 'b' => some '\x08'
  | 'f' => some '\x0c'
  | 'n' => some '\n'
  | 'r' => some '\r'
  | 't' => some '\t'
  | _ => none

/-- Parses the body of a JSON string (after the opening quote), returning the
content and the remainder after the closing quote; `none` on any violation
of the JSON string grammar (unterminated string, bad escape, raw control
character). -/
def pStringChars : List Char → Option (List Char × List Char)
  | [] => none
  | '"' :: rest => some ([], rest)
  | '\\' :: 'u' :: h1 :: h2 :: h3 :: h4 :: r2 =>
    match hexVal h1, hexVal h2, hexVal h3, hexVal h4 with
    | some a, some b, some c, some d =>
      (pStringChars r2).map (fun p => (Char.ofNat (((a * 16 + b) * 16 + c) * 16 + d) :: p.1, p.2))
    | _, _, _, _ => none
  | '\\' :: e :: r2 =>
    match escapeChar e with
    | some c => (pStringChars r2).map (fun p => (c :: p.1, p.2))
    | none => none
  | '\\' :: [] => none
  | c :: rest =>
    if c.toNat < 32 then none
    else (pStringChars rest).map (fun p => (c :: p.1, p.2))

/-- Exponent-and-assembly step of the JSON number grammar: an optional
`e`/`E` part (sign and at least one digit) applied to the signed mantissa. -/
def pNumberExpDigits (m : Rat) (cs : List Char) : Option (Rat × List Char) :=
  let (esign, cs1) : Int × List Char :=
    match cs with
    | '-' :: r => (-1, r)
    | '+' :: r => (1, r)
    | _ => (1, cs)
  let ds := cs1.takeWhile Char.isDigit
  if ds = [] then none
  else some (m * (10 : Rat) ^ (esign * (digitsToNat ds : Int)), cs1.dropWhile Char.isDigit)

/-- Mantissa assembly of the JSON number grammar, then the optional
exponent. -/
def pNumberExp (neg : Bool) (intDs fracDs : List Char) (cs : List Char) : Option (Rat × List Char) :=
  let base : Rat :=
    (digitsToNat intDs : Rat) + (digitsToNat fracDs : Rat) / ((10 ^ fracDs.length : Nat) : Rat)
  let signed : Rat := if neg then -base else base
  match cs with
  | 'e' :: r => pNumberExpDigits signed r
  | 'E' :: r => pNumberExpDigits signed r
  | _ => some (signed, cs)

/-- Parses a JSON number: `-? (0 | [1-9][0-9]*) (.[0-9]+)? ([eE][+-]?[0-9]+)?`.
`none` when the grammar is violated at this position. -/
def pNumber (cs : List Char) : Option (Rat × List Char) :=
  let (neg, cs1) : Bool × List Char :=
    match cs with
    | '-' :: r => (true, r)
    | _ => (false, cs)
  match cs1 with
  | [] => none
  | c0 :: _ =>
    if !c0.isDigit then none
    else
      let intDs := cs1.takeWhile Char.isDigit
      let cs2 := cs1.dropWhile Char.isDigit
      if c0 = '0' ∧ intDs.length > 1 then none
      else
        match cs2 with
        | '.' :: r =>
          let fracDs := r.takeWhile Char.isDigit
          if fracDs = [] then none
          else pNumberExp neg intDs fracDs (r.dropWhile Char.isDigit)
        | _ => pNumberExp neg intDs [] cs2

mutual

/-- Parses one JSON value starting at `cs` (leading whitespace allowed),
returning it with the unconsumed remainder.  The fuel only bounds recursion
through nested structures; `jsonParse` supplies more than any input can
consume. -/
def pValue : Nat → List Char → Except String (JsValue × List Char)
  | 0, _ => .error "SyntaxError: JSON nesting fuel exhausted"
  | fuel+1, cs =>
    match skipWs cs with
    | [] => .error "SyntaxError: Unexpected end of JSON input"
    | '\x7b' :: rest =>
      (match skipWs rest with
       | '\x7d' :: r2 => .ok (.obj [], r2)
       | _ =>
         match pMembersLoop fuel rest with
         | .ok (ms, r2) => .ok (.obj ms, r2)
         | .error e => .error e)
    | '[' :: rest =>
      (match skipWs rest with
       | ']' :: r2 => .ok (.arr [], r2)
       | _ =>
         match pElemsLoop fuel rest with
         | .ok (vs, r2) => .ok (.arr vs, r2)
         | .error e => .error e)
    | '"' :: rest =>
      (match pStringChars rest with
       | some (content, r2) => .ok (.str (String.mk content), r2)
       | none => .error "SyntaxError: Bad string in JSON")
    | 't' :: rest =>
      if ['r', 'u', 'e'].isPrefixOf rest then .ok (.bool true, rest.drop 3)
      else .error "SyntaxError: Unexpected token in JSON"
    | 'f' :: rest =>
      if ['a', 'l', 's', 'e'].isPrefixOf rest then .ok (.bool false, rest.drop 4)
      else .error "SyntaxError: Unexpected token in JSON"
    | 'n' :: rest =>
      if ['u', 'l', 'l'].isPrefixOf rest then .ok (.null, rest.drop 3)
      else .error "SyntaxError: Unexpected token in JSON"
    | cs' =>
      match pNumber cs' with
      | some (q, rest) => .ok (.num q, rest)
      | none => .error "SyntaxError: Unexpected token in JSON"

/-- Parses the comma-separated elements of a nonempty JSON array (after the
opening bracket), consuming the closing bracket. -/
def pElemsLoop : Nat → List Char → Except String (List JsValue × List Char)
  | 0, _ => .error "SyntaxError: JSON nesting fuel exhausted"
  | fuel+1, cs =>
    match pValue fuel cs with
    | .error e => .error e
    | .ok (v, cs1) =>
      match skipWs cs1 with
      | ',' :: rest =>
        (match pElemsLoop fuel rest with
         | .ok (vs, cs2) => .ok (v :: vs, cs2)
         | .error e => .error e)
      | ']' :: rest => .ok ([v], rest)
      | _ => .error "SyntaxError: Expected comma or closing bracket in JSON array"

/-- Parses the members of a nonempty JSON object (after the opening brace),
consuming the closing brace. -/
def pMembersLoop : Nat → List Char → Except String (List (String × JsValue) × List Char)
  | 0, _ => .error "SyntaxError: JSON nesting fuel exhausted"
  | fuel+1, cs =>
    match skipWs cs with
    | '"' :: rest =>
      (match pStringChars rest with
       | none => .error "SyntaxError: Bad string in JSON"
       | some (key, cs1) =>
         match skipWs cs1 with
         | ':' :: cs2 =>
           (match pValue fuel cs2 with
            | .error e => .error e
            | .ok (v, cs3) =>
              match skipWs cs3 with
              | ',' :: rest2 =>
                (match pMembersLoop fuel rest2 with
                 | .ok (ms, cs4) => .ok ((String.mk key, v) :: ms, cs4)
                 | .error e => .error e)
              | '\x7d' :: rest2 => .ok ([(String.mk key, v)], rest2)
              | _ => .error "SyntaxError: Expected comma or closing brace in JSON object")
         | _ => .error "SyntaxError: Expected colon in JSON object")
    | _ => .error "SyntaxError: Expected property name in JSON object"

end

/-- Models the JavaScript builtin `JSON.parse`: parses the whole string as a
single JSON value (`.error` models the thrown `SyntaxError`).  The fuel
`2 * s.length + 2` exceeds the recursion depth any input of this length can
force. -/
def jsonParse (s : String) : Except String JsValue :=
  match pValue (2 * s.length + 2) s.data with
  | .error e => .error e
  | .ok (v, rest) =>
    if skipWs rest = [] then .ok v
    else .error "SyntaxError: Unexpected non-whitespace character after JSON data"

/-- The two values of `this._direction` (`'left' | 'right'`). -/
inductive ScrollDir where
  | left
  | right

/-- The component's configuration snapshot: the private fields `_accent`,
`_borderColor`, `_speed`, `_direction`, `_logos` of `_SolarLogoTicker`.
`logos` holds whatever dynamic value the last assignment stored (the
constructor stores `[]`; `JSON.parse` results are stored unvalidated). -/
structure TickerConfig where
  accent : String
  borderColor : String
  speed : Rat
  direction : ScrollDir
  logos : JsValue

/-- The field values installed by the constructor (source lines 2-11). -/
def initialConfig : TickerConfig where
  accent := "hsl(var(--muted) / 0.3)"
  borderColor := "hsl(var(--border) / 0.3)"
  speed := 90
  direction := .left
  logos := .arr []

/-- The 1x1-pixel placeholder data URI used verbatim by every entry of
`getDefaultLogos` except "The Mountaineers" (source lines 60-83). -/
def pixelLogo : String :=
  "data:image/png;base64,iVBORw0KGgoAAAANSUhEUgAAAAEAAAABCAQAAAC1HAwCAAAAC0lEQVR42mNkYAAAAAYAAjCB0C8AAAAASUVORK5CYII="

/-- The elements of the array literal returned by `getDefaultLogos`
(source lines 59-84), in order, with the exact `name`, `logo` and `scale`
fields of each object literal. -/
def defaultLogoList : List JsValue :=
  [ .obj [("name", .str "Arctic Tern Expeditions"), ("logo", .str pixelLogo), ("scale", .num 1.7)],
    .obj [("name", .str "California Marine Sanctuary Foundation"), ("logo", .str pixelLogo), ("scale", .num 1.6)],
    .obj [("name", .str "Converge"), ("logo", .str pixelLogo)],
    .obj [("name", .str "Discovery Digital Networks"), ("logo", .str pixelLogo)],
    .obj [("name", .str "Gates Foundation"), ("logo", .str pixelLogo)],
    .obj [("name", .str "Harvard Kennedy School"), ("logo", .str pixelLogo), ("scale", .num 1.4)],
    .obj [("name", .str "Hawaii Institute of Marine Biology"), ("logo", .str pixelLogo)],
    .obj [("name", .str "MIT"), ("logo", .str pixelLogo)],
    .obj [("name", .str "The Mountaineers"), ("logo", .str "data:image/png;base64,iVBORw0KGgoAAAANBvcHJvdGlvbi5jb20vdjIvZGF0YS9pbWFnZXMvbW91bnRhaW5lZXJz-white.png")],
    .obj [("name", .str "Northeastern University"), ("logo", .str pixelLogo)],
    .obj [("name", .str "NOAA"), ("logo", .str pixelLogo)],
    .obj [("name", .str "Orbtl"), ("logo", .str pixelLogo)],
    .obj [("name", .str "Ocean Youth Academy"), ("logo", .str pixelLogo)],
    .obj [("name", .str "Reinvent"), ("logo", .str pixelLogo)],
    .obj [("name", .str "Restore With Resilience"), ("logo", .str pixelLogo), ("scale", .num 1.2)],
    .obj [("name", .str "Seeker"), ("logo", .str pixelLogo)],
    .obj [("name", .str "Smithsonian"), ("logo", .str pixelLogo), ("scale", .num 1.6)],
    .obj [("name", .str "The Nature Conservancy"), ("logo", .str pixelLogo), ("scale", .num 1.6)],
    .obj [("name", .str "The Verge"), ("logo", .str pixelLogo)],
    .obj [("name", .str "Vox"), ("logo", .str pixelLogo)],
    .obj [("name", .str "Watt"), ("logo", .str pixelLogo)],
    .obj [("name", .str "Yale"), ("logo", .str pixelLogo)],
    .obj [("name", .str "Yuba Trails Stewardship"), ("logo", .str pixelLogo), ("scale", .num 1.7)] ]

/-- `getDefaultLogos()` (source lines 58-85): the built-in fallback set, an
array of 23 logo records. -/
def getDefaultLogos : JsValue := .arr defaultLogoList

/-- The diagnostic emitted by `console.error` when `JSON.parse` throws
(source lines 34 and 51). -/
def invalidDataJsonMsg : String := "solar-logo-ticker: Invalid data-json provided"

/-- The `glowStyle` constant of `createTickerRowContent` (source line 227):
a dual drop-shadow filter when `item.needsGlow` is truthy, else empty.
Stated via the defined lookup `jsFieldD`: the mapper only reaches this
fragment for items on which the line-227 access did not throw, where
`jsField` returns `.ok (jsFieldD item "needsGlow")`. -/
def glowStyle (item : JsValue) : String :=
  if truthy (jsFieldD item "needsGlow") then
    "filter: drop-shadow(0 0 6px rgba(255,255,255,0.7)) drop-shadow(0 0 12px rgba(255,255,255,0.3));"
  else ""

/-- The `scaleStyle` constant of `createTickerRowContent` (source line 228):
a transform when `item.scale` is truthy, else empty. -/
def scaleStyle (item : JsValue) : String :=
  if truthy (jsFieldD item "scale") then
    "transform: scale(" ++ jsToString (jsFieldD item "scale") ++ ");"
  else ""

/-- The identity key interpolated into each item wrapper (source line 230):
`` `${item.name}-${index}` ``. -/
def itemKey (item : JsValue) (index : Nat) : String :=
  jsToString (jsFieldD item "name") ++ "-" ++ jsNatRepr index

/-- The mapper body of `createTickerRowContent` (source lines 226-238):
the first property access it performs, `item.needsGlow` on line 227,
throws a `TypeError` when the element is `null` or `undefined`; past that
guard every further access is defined and the template literal (whitespace
included) is built totally from the defined lookups. -/
def itemHtml (item : JsValue) (index : Nat) : Except String String :=
  match jsField item "needsGlow" with
  | .error e => .error e
  | .ok _ =>
    .ok ("\n        <div class=\"logo-item-wrapper\" key=\"" ++ itemKey item index ++ "\">\n          <img\n            src=\"" ++ jsToString (jsFieldD item "logo") ++ "\"\n            alt=\"" ++ jsToString (jsFieldD item "name") ++ "\"\n            class=\"logo-item\"\n            style=\"" ++ scaleStyle item ++ " " ++ glowStyle item ++ "\"\n          />\n        </div>\n      ")

/-- Worker for `mapWithIndex` carrying the running index. -/
def mapWithIndexAux (f : α → Nat → β) : Nat → List α → List β
  | _, [] => []
  | i, a :: as => f a i :: mapWithIndexAux f (i+1) as

/-- JavaScript `array.map((item, index) => ...)`. -/
def mapWithIndex (f : α → Nat → β) (l : List α) : List β := mapWithIndexAux f 0 l

/-- The list of per-item mapper results: `duplicatedItems.map(...)` where
`duplicatedItems = [...items, ...items, ...items]` (source lines 225-239),
for a spread that yielded `elems`; each entry is the item's template
string, or the `TypeError` its first property access throws. -/
def tickerRowItems (elems : List JsValue) : List (Except String String) :=
  mapWithIndex itemHtml (elems ++ elems ++ elems)

/-- Evaluates a list of fallible computations left to right, propagating
the first thrown error — the behavior of `Array.prototype.map` when the
callback can throw. -/
def sequenceExcept : List (Except String α) → Except String (List α)
  | [] => .ok []
  | x :: xs =>
    match x with
    | .error e => .error e
    | .ok s =>
      match sequenceExcept xs with
      | .error e => .error e
      | .ok ss => .ok (s :: ss)

/-- `createTickerRowContent(items)` (source lines 224-240): spreads the
stored logos value three times into one array, maps each element to its
item template and joins.  The `Except` carries the `TypeError` thrown by
the spread when the stored value is not iterable, or by the first property
access (`item.needsGlow`, line 227) when a spread element is `null` or
`undefined`. -/
def createTickerRowContent (items : JsValue) : Except String String :=
  match spreadElems items with
  | .error e => .error e
  | .ok elems =>
    match sequenceExcept (tickerRowItems elems) with
    | .error e => .error e
    | .ok htmls => .ok (String.join htmls)

/-- The stored logos value re-renders without throwing iff it is iterable
(an array or a string) and, once spread, every element supports property
access — no `null` (or `undefined`) elements. -/
def renderableLogos (v : JsValue) : Bool :=
  match v with
  | .arr elems => elems.all propAccessOk
  | .str _ => true
  | _ => false

/-- The background value interpolated on source line 124:
`` linear-gradient(180deg, ${this._accent} 0%, ${this._accent.replace("0.3", "0.1")} 100%) ``. -/
def accentGradient (accent : String) : String :=
  "linear-gradient(180deg, " ++ accent ++ " 0%, " ++ jsReplace accent "0.3" "0.1" ++ " 100%)"

/-- `getStyles()` (source lines 96-203): the component's style sheet,
parameterized by `_accent` (via `accentGradient`), `_borderColor` and
`_speed`.  Braces are written `\x7b`/`\x7d`. -/
def getStyles (cfg : TickerConfig) : String :=
  "\n      :host \x7b\n        display: block;\n        contain: content;\n        font-family: inherit;\n        -webkit-font-smoothing: antialiased;\n        -moz-osx-font-smoothing: grayscale;\n      \x7d\n\n      .logo-ticker-section \x7b\n        padding-top: 3rem;   /* py-12 */\n        padding-bottom: 3rem; /* py-12 */\n        margin-top: -2rem; /* -mt-8 */\n        overflow: hidden;\n      \x7d\n\n      .logo-ticker-container \x7b\n        max-width: 80rem; /* max-w-7xl */\n        margin-left: auto;\n        margin-right: auto;\n        padding-left: 1.5rem; /* px-6 */\n        padding-right: 1.5rem; /* px-6 */\n        padding-top: 2rem; /* py-8 */\n        padding-bottom: 2rem; /* py-8 */\n        border-radius: 1rem; /* rounded-2xl */\n        background: " ++ accentGradient cfg.accent ++ ";\n        border: 1px solid " ++ cfg.borderColor ++ ";\n      \x7d\n\n      .logo-carousel-mask \x7b\n        position: relative;\n        mask-image: linear-gradient(to right, transparent, black 8%, black 92%, transparent);\n        -webkit-mask-image: linear-gradient(to right, transparent, black 8%, black 92%, transparent);\n        overflow: hidden; /* Ensure mask applies correctly */\n      \x7d\n\n      .logo-ticker-row \x7b\n        display: flex;\n        align-items: center;\n        gap: 3.5rem; /* gap-14 */\n        animation: scroll-left var(--ticker-speed, 90s) linear infinite;\n      \x7d\n\n      :host([direction=\"right\"]) .logo-ticker-row \x7b\n        animation: scroll-right var(--ticker-speed, 90s) linear infinite;\n      \x7d\n      \n      .logo-item-wrapper \x7b\n        flex-shrink: 0;\n        display: flex;\n        align-items: center;\n        justify-content: center;\n        padding-left: 0.5rem; /* px-2 */\n        padding-right: 0.5rem; /* px-2 */\n        overflow: visible; /* Prevent clipping of glow, if any */\n      \x7d\n\n      .logo-item \x7b\n        height: 2.5rem; /* h-10 */\n        width: auto;\n        max-width: 7.5rem; /* max-w-[120px] */\n        object-fit: contain;\n        opacity: 0.6;\n        transition: transform 0.3s ease, filter 0.3s ease;\n      \x7d\n\n      @media (min-width: 768px) \x7b /* md breakpoint */\n        .logo-ticker-row \x7b\n          gap: 5rem; /* md:gap-20 */\n        \x7d\n        .logo-item \x7b\n          height: 3rem; /* md:h-12 */\n          max-width: 10rem; /* md:max-w-[160px] */\n        \x7d\n      \x7d\n\n      @keyframes scroll-left \x7b\n        0% \x7b transform: translateX(0%); \x7d\n        100% \x7b transform: translateX(-33.333%); \x7d\n      \x7d\n\n      @keyframes scroll-right \x7b\n        0% \x7b transform: translateX(-33.333%); \x7d\n        100% \x7b transform: translateX(0%); \x7d\n      \x7d\n\n      @media (prefers-reduced-motion: reduce) \x7b\n        .logo-ticker-row \x7b\n          animation-play-state: paused !important;\n          animation: none !important;\n          transform: none !important;\n        \x7d\n        .logo-carousel-mask \x7b\n           mask-image: none !important;\n           -webkit-mask-image: none !important;\n        \x7d\n      \x7d\n\n      /* Dynamically set speed */\n      .logo-ticker-row \x7b\n        --ticker-speed: " ++ jsNumToString cfg.speed ++ "s;\n      \x7d\n    "

/-- `render()` (source lines 204-223): the shadow subtree built from the
current configuration — the style tag and the section/container/mask/row
template with the triplicated item content.  The `Except` propagates the
`TypeError` thrown while building the row content. -/
def renderOutput (cfg : TickerConfig) : Except String String :=
  match createTickerRowContent cfg.logos with
  | .error e => .error e
  | .ok rowContent =>
    .ok ("\n        <style>" ++ getStyles cfg ++ "</style>\n        <section class=\"logo-ticker-section\">\n          <div class=\"logo-ticker-container\">\n            <div class=\"logo-carousel-mask\">\n              <div class=\"logo-ticker-row\" style=\"animation-duration: " ++ jsNumToString cfg.speed ++ "s;\">\n                " ++ rowContent ++ "\n              </div>\n            </div>\n          </div>\n        </section>\n      ")

/-- The `speed` case of `attributeChangedCallback` (source line 25):
`this._speed = parseFloat(newValue) || 90`. -/
def effectiveSpeed (s : String) : Rat := jsOr (parseFloat s) 90

/-- The `data-json` case of `attributeChangedCallback` (source lines 30-37):
`JSON.parse` under try/catch; on a thrown parse error, a diagnostic is
logged (second component) and the fallback set substituted; on success the
parsed value is stored as-is. -/
def processDataJson (cfg : TickerConfig) (newValue : String) : TickerConfig × List String :=
  match jsonParse newValue with
  | .ok v => ({ cfg with logos := v }, [])
  | .error _ => ({ cfg with logos := getDefaultLogos }, [invalidDataJsonMsg])

/-- The `switch (name)` statement of `attributeChangedCallback` (source
lines 20-38): the field assignment performed for the changed attribute,
with the diagnostics logged.  An unrecognized name (including the observed
but unused `variant`) falls through with no field change. -/
def applyAttribute (cfg : TickerConfig) (name : String) (newValue : String) : TickerConfig × List String :=
  if name = "accent" then ({ cfg with accent := newValue }, [])
  else if name = "speed" then ({ cfg with speed := effectiveSpeed newValue }, [])
  else if name = "direction" then
    ({ cfg with direction := if newValue = "right" then .right else .left }, [])
  else if name = "data-json" then processDataJson cfg newValue
  else (cfg, [])

/-- `attributeChangedCallback(name, oldValue, newValue)` (source lines
18-41) for an attribute set to the string `newValue` (`oldValue` is `none`
when the attribute was previously absent, i.e. JavaScript `null`): the
`oldValue === newValue` early return, then the switch (`applyAttribute`),
then `render()` and `updateStyles()` run unconditionally (source lines
39-40; `updateStyles` rewrites the style tag with `getStyles`, already part
of `renderOutput`, and cannot throw).  Returns the updated configuration,
the diagnostics logged, and `some` rendered subtree when a rebuild ran
(`none` on the early return); `.error` models an exception escaping the
callback. -/
def attributeChangedCallback (cfg : TickerConfig) (name : String) (oldValue : Option String) (newValue : String) :
    Except String (TickerConfig × List String × Option String) :=
  if oldValue = some newValue then .ok (cfg, [], none)
  else
    match renderOutput (applyAttribute cfg name newValue).1 with
    | .ok html => .ok ((applyAttribute cfg name newValue).1, (applyAttribute cfg name newValue).2, some html)
    | .error e => .error e

/-- `_SolarLogoTicker.observedAttributes` (source line 242). -/
def observedAttributes : List String := ["accent", "variant", "speed", "direction", "data-json"]

/-- Spec-side predicate (from §3 of the specification): a value is a
LogoEntry-shaped record when it is an object whose `name` and `logo`
(spec: `imageSource`) are strings, whose `needsGlow` (spec: `glow`) is
absent or boolean, and whose `scale` is absent or a number. -/
def isLogoEntryRecord (v : JsValue) : Bool :=
  match v with
  | .obj _ =>
    (match jsFieldD v "name" with | .str _ => true | _ => false) &&
    (match jsFieldD v "logo" with | .str _ => true | _ => false) &&
    (match jsFieldD v "needsGlow" with | .undefined => true | .bool _ => true | _ => false) &&
    (match jsFieldD v "scale" with | .undefined => true | .num _ => true | _ => false)
  | _ => false

/-- Spec-side predicate: the parsed `data-json` value is an array of
LogoEntry-shaped records. -/
def isLogoEntryArray (v : JsValue) : Bool :=
  match v with
  | .arr elems => elems.all isLogoEntryRecord
  | _ => false

/-- A `data-json` string whose processing completes without an exception:
either `JSON.parse` throws (caught, fallback applied) or it yields a value
the re-render can draw — iterable, with no nullish spread elements. -/
def dataJsonSafe (s : String) : Bool :=
  match jsonParse s with
  | .error _ => true
  | .ok v => renderableLogos v

/-- Checker for the spec's LogoEntry invariant (§3): used on the fallback
set — nonempty string field. -/
def nonEmptyStr : JsValue → Bool
  | .str s => !(s == "")
  | _ => false

/-- Checker for the spec's LogoEntry invariant (§3): `scale`, wherever
present, is a positive (finite, as all rationals are) number. -/
def scaleOk : JsValue → Bool
  | .undefined => true
  | .num q => decide (0 < q)
  | _ => false

/-- The spec's LogoEntry invariant (§3) for one record: nonempty `name`,
nonempty image reference (`logo`), and a positive finite `scale` wherever
present. -/
def logoEntryOk (e : JsValue) : Bool :=
  nonEmptyStr (jsFieldD e "name") && nonEmptyStr (jsFieldD e "logo") && scaleOk (jsFieldD e "scale")

/-- The number of elements when the value is an array (used to separate
concrete arrays). -/
def jsArrLength : JsValue → Nat
  | .arr l => l.length
  | _ => 0

theorem mapWithIndexAux_length (f : α → Nat → β) : ∀ (k : Nat) (l : List α), (mapWithIndexAux f k l).length = l.length := by
  intro k l
  induction l generalizing k with
  | nil => rfl
  | cons a as ih => simp [mapWithIndexAux, ih]

theorem mapWithIndex_length (f : α → Nat → β) (l : List α) : (mapWithIndex f l).length = l.length :=
  mapWithIndexAux_length f 0 l

theorem mapWithIndexAux_getElem? (f : α → Nat → β) : ∀ (l : List α) (k i : Nat), (mapWithIndexAux f k l)[i]? = (l[i]?).map (fun a => f a (k + i)) := by
  intro l
  induction l with
  | nil => intro k i; simp [mapWithIndexAux]
  | cons a as ih =>
    intro k i
    cases i with
    | zero => simp [mapWithIndexAux]
    | succ i =>
      simp only [mapWithIndexAux, List.getElem?_cons_succ]
      rw [ih (k+1) i]
      have harith : k + 1 + i = k + (i + 1) := by omega
      rw [harith]

theorem mapWithIndex_getElem? (f : α → Nat → β) (l : List α) (i : Nat) : (mapWithIndex f l)[i]? = (l[i]?).map (fun a => f a i) := by
  have h := mapWithIndexAux_getElem? f l 0 i
  simpa [mapWithIndex] using h

theorem getElem?_append_lt : ∀ (l₁ l₂ : List α) (i : Nat), i < l₁.length → (l₁ ++ l₂)[i]? = l₁[i]? := by
  intro l₁
  induction l₁ with
  | nil => intro l₂ i h; simp at h
  | cons a as ih =>
    intro l₂ i h
    cases i with
    | zero => simp
    | succ i =>
      simp only [List.cons_append, List.getElem?_cons_succ]
      exact ih l₂ i (by simpa using h)

theorem getElem?_append_ge : ∀ (l₁ l₂ : List α) (i : Nat), l₁.length ≤ i → (l₁ ++ l₂)[i]? = l₂[i - l₁.length]? := by
  intro l₁
  induction l₁ with
  | nil => intro l₂ i h; simp
  | cons a as ih =>
    intro l₂ i h
    cases i with
    | zero => simp at h
    | succ i =>
      simp only [List.cons_append, List.getElem?_cons_succ, List.length_cons]
      rw [ih l₂ i (by simpa using h)]
      congr 1
      omega

theorem triple_getElem? (L : List α) (i : Nat) (h : i < 3 * L.length) : (L ++ L ++ L)[i]? = L[i % L.length]? := by
  have hN : 0 < L.length := by omega
  rcases Nat.lt_or_ge i L.length with h1 | h1
  · rw [getElem?_append_lt _ _ _ (by simp; omega), getElem?_append_lt _ _ _ h1,
      Nat.mod_eq_of_lt h1]
  · rcases Nat.lt_or_ge i (2 * L.length) with h2 | h2
    · rw [getElem?_append_lt _ _ _ (by simp; omega), getElem?_append_ge _ _ _ h1,
        Nat.mod_eq_sub_mod h1, Nat.mod_eq_of_lt (by omega)]
    · rw [getElem?_append_ge _ _ _ (by simp; omega)]
      have hmod : i % L.length = i - (L ++ L).length := by
        rw [Nat.mod_eq_sub_mod h1, Nat.mod_eq_sub_mod (by omega : L.length ≤ i - L.length),
          Nat.mod_eq_of_lt (by omega)]
        simp; omega
      rw [hmod]

theorem digitsLE_lt10 : ∀ (fuel n d : Nat), d ∈ digitsLE fuel n → d < 10 := by
  intro fuel
  induction fuel with
  | zero => intro n d h; simp [digitsLE] at h
  | succ fuel ih =>
    intro n d h
    by_cases hn : n = 0
    · simp [digitsLE, hn] at h
    · simp only [digitsLE, if_neg hn, List.mem_cons] at h
      rcases h with h | h
      · subst h; exact Nat.mod_lt n (by omega)
      · exact ih _ _ h

theorem valLE_digitsLE : ∀ (fuel n : Nat), n ≤ fuel → valLE (digitsLE fuel n) = n := by
  intro fuel
  induction fuel with
  | zero => intro n h; interval_cases n; rfl
  | succ fuel ih =>
    intro n h
    by_cases hn : n = 0
    · simp [digitsLE, hn, valLE]
    · have hrec : n / 10 ≤ fuel := by
        have := Nat.div_lt_self (Nat.pos_of_ne_zero hn) (by omega : 1 < 10)
        omega
      simp only [digitsLE, if_neg hn]
      show n % 10 + 10 * valLE (digitsLE fuel (n / 10)) = n
      rw [ih _ hrec]
      exact Nat.mod_add_div n 10

theorem digitChar_inj_lt10 : ∀ a < 10, ∀ b < 10, Nat.digitChar a = Nat.digitChar b → a = b := by decide

theorem digitChar_ne_hyphen : ∀ d < 10, (Nat.digitChar d != '-') = true := by decide

theorem map_digitChar_inj : ∀ (l1 l2 : List Nat), (∀ d ∈ l1, d < 10) → (∀ d ∈ l2, d < 10) → l1.map Nat.digitChar = l2.map Nat.digitChar → l1 = l2 := by
  intro l1
  induction l1 with
  | nil => intro l2 _ _ h; cases l2 with
    | nil => rfl
    | cons b bs => simp at h
  | cons a as ih =>
    intro l2 h1 h2 h
    cases l2 with
    | nil => simp at h
    | cons b bs =>
      simp only [List.map_cons, List.cons.injEq] at h
      have ha : a = b := digitChar_inj_lt10 a (h1 a (by simp)) b (h2 b (by simp)) h.1
      have hb : as = bs := ih bs (fun d hd => h1 d (by simp [hd])) (fun d hd => h2 d (by simp [hd])) h.2
      rw [ha, hb]

theorem jsNatRepr_inj : ∀ {a b : Nat}, jsNatRepr a = jsNatRepr b → a = b := by
  intro a b h
  by_cases ha : a = 0 <;> by_cases hb : b = 0
  · omega
  · exfalso
    simp only [jsNatRepr, if_pos ha, if_neg hb] at h
    have hdata : ('0' :: []) = ((digitsLE (b+1) b).map Nat.digitChar).reverse := congrArg String.data h
    have hrev : List.reverse ['0'] = (digitsLE (b+1) b).map Nat.digitChar := by
      rw [← List.reverse_reverse ((digitsLE (b+1) b).map Nat.digitChar), ← hdata]
    have : [(0 : Nat)].map Nat.digitChar = (digitsLE (b+1) b).map Nat.digitChar := by
      simpa using hrev
    have hlist : [(0 : Nat)] = digitsLE (b+1) b :=
      map_digitChar_inj _ _ (by simp) (fun d hd => digitsLE_lt10 _ _ _ hd) this
    have hval := valLE_digitsLE (b+1) b (by omega)
    rw [← hlist] at hval
    simp [valLE] at hval
    omega
  · exfalso
    simp only [jsNatRepr, if_neg ha, if_pos hb] at h
    have hdata : ((digitsLE (a+1) a).map Nat.digitChar).reverse = ('0' :: []) := congrArg String.data h
    have hrev : List.reverse ['0'] = (digitsLE (a+1) a).map Nat.digitChar := by
      rw [← List.reverse_reverse ((digitsLE (a+1) a).map Nat.digitChar), hdata]
    have : [(0 : Nat)].map Nat.digitChar = (digitsLE (a+1) a).map Nat.digitChar := by
      simpa using hrev
    have hlist : [(0 : Nat)] = digitsLE (a+1) a :=
      map_digitChar_inj _ _ (by simp) (fun d hd => digitsLE_lt10 _ _ _ hd) this
    have hval := valLE_digitsLE (a+1) a (by omega)
    rw [← hlist] at hval
    simp [valLE] at hval
    omega
  · simp only [jsNatRepr, if_neg ha, if_neg hb] at h
    have hdata := congrArg String.data h
    simp only at hdata
    have hmap : (digitsLE (a+1) a).map Nat.digitChar = (digitsLE (b+1) b).map Nat.digitChar := by
      have := congrArg List.reverse hdata
      simpa using this
    have hlist : digitsLE (a+1) a = digitsLE (b+1) b :=
      map_digitChar_inj _ _ (fun d hd => digitsLE_lt10 _ _ _ hd) (fun d hd => digitsLE_lt10 _ _ _ hd) hmap
    have hva := valLE_digitsLE (a+1) a (by omega)
    have hvb := valLE_digitsLE (b+1) b (by omega)
    rw [hlist] at hva
    omega

theorem jsNatRepr_no_hyphen (n : Nat) : ∀ c ∈ (jsNatRepr n).data, (c != '-') = true := by
  intro c hc
  by_cases hn : n = 0
  · simp [jsNatRepr, hn] at hc
    subst hc; decide
  · simp only [jsNatRepr, if_neg hn] at hc
    have hc' : c ∈ (digitsLE (n+1) n).map Nat.digitChar := by
      rw [← List.mem_reverse]; exact hc
    obtain ⟨d, hd, rfl⟩ := List.mem_map.mp hc'
    exact digitChar_ne_hyphen d (digitsLE_lt10 _ _ _ hd)

theorem takeWhile_append_sentinel (p : α → Bool) : ∀ (l₁ : List α) (c : α) (l₂ : List α), (∀ x ∈ l₁, p x = true) → p c = false → (l₁ ++ c :: l₂).takeWhile p = l₁ := by
  intro l₁
  induction l₁ with
  | nil => intro c l₂ _ hc; simp [List.takeWhile_cons, hc]
  | cons a as ih =>
    intro c l₂ h1 hc
    have ha : p a = true := h1 a (by simp)
    simp only [List.cons_append, List.takeWhile_cons, ha, if_true]
    rw [ih c l₂ (fun x hx => h1 x (by simp [hx])) hc]

theorem key_reverse_takeWhile (name : String) (n : Nat) :
    ((name ++ "-" ++ jsNatRepr n).data.reverse.takeWhile (fun c => c != '-')) = (jsNatRepr n).data.reverse := by
  rw [String.data_append, String.data_append]
  have hminus : ("-" : String).data = ['-'] := rfl
  rw [hminus, List.reverse_append, List.reverse_append]
  have hshape : List.reverse ['-'] ++ name.data.reverse = '-' :: name.data.reverse := rfl
  rw [hshape]
  exact takeWhile_append_sentinel _ _ _ _
    (fun c hc => jsNatRepr_no_hyphen n c (List.mem_reverse.mp hc)) (by decide)

theorem itemKey_inj_index {a b : JsValue} {i j : Nat} (h : itemKey a i = itemKey b j) : i = j := by
  unfold itemKey at h
  have h2 := congrArg (fun s : String => s.data.reverse.takeWhile (fun c => c != '-')) h
  simp only [key_reverse_takeWhile] at h2
  have h3 : (jsNatRepr i).data = (jsNatRepr j).data := by
    have h4 := congrArg List.reverse h2
    simpa using h4
  exact jsNatRepr_inj (String.ext h3)

theorem occurrence_cons_elim {m : List Char} {c : Char} {l : List Char} (h : m <:+: c :: l) :
    m <+: c :: l ∨ m <:+: l := by
  obtain ⟨s, t, hst⟩ := h
  cases s with
  | nil =>
    left
    exact ⟨t, by simpa using hst⟩
  | cons a s' =>
    right
    have hst' : s' ++ m ++ t = l := by
      have := hst
      simp only [List.cons_append] at this
      exact (List.cons.injEq _ _ _ _).mp this |>.2
    exact ⟨s', t, hst'⟩

theorem occurrence_cons_intro {m : List Char} {c : Char} {l : List Char} (h : m <:+: l) : m <:+: c :: l := by
  obtain ⟨s, t, hst⟩ := h
  exact ⟨c :: s, t, by simp [hst]⟩

theorem replaceFirstAux_no_occurrence (pat rep : List Char) :
    ∀ (s : List Char), ¬ (pat <:+: s) → replaceFirstAux pat rep s = s := by
  intro s
  induction s with
  | nil =>
    intro h
    have hne : pat.isEmpty = false := by
      cases pat with
      | nil => exact absurd ⟨[], [], rfl⟩ h
      | cons p ps => rfl
    simp [replaceFirstAux, hne]
  | cons c cs ih =>
    intro h
    have hnp : pat.isPrefixOf (c :: cs) = false := by
      by_contra hcon
      have : pat.isPrefixOf (c :: cs) = true := by
        cases hx : pat.isPrefixOf (c :: cs) with
        | true => rfl
        | false => exact absurd hx hcon
      exact h ((List.isPrefixOf_iff_prefix.mp this).isInfix)
    have hni : ¬ (pat <:+: cs) := fun hcon => h (occurrence_cons_intro hcon)
    simp only [replaceFirstAux, hnp, Bool.false_eq_true, if_false]
    rw [ih hni]

theorem replaceFirstAux_first_occ (pat rep : List Char) :
    ∀ (s : List Char), pat <:+: s →
      ∃ p q, s = p ++ pat ++ q ∧ replaceFirstAux pat rep s = p ++ rep ++ q ∧
        ∀ p' q', s = p' ++ pat ++ q' → p.length ≤ p'.length := by
  intro s
  induction s with
  | nil =>
    intro h
    obtain ⟨s₀, t₀, hst⟩ := h
    have hpat : pat = [] := by
      rcases List.append_eq_nil.mp hst with ⟨h1, h2⟩
      exact (List.append_eq_nil.mp h1).2
    refine ⟨[], [], by simp [hpat], ?_, fun p' q' _ => by simp⟩
    simp [replaceFirstAux, hpat]
  | cons c cs ih =>
    intro h
    by_cases hpre : pat.isPrefixOf (c :: cs) = true
    · obtain ⟨t, ht⟩ := List.isPrefixOf_iff_prefix.mp hpre
      refine ⟨[], t, by simp [ht.symm], ?_, fun p' q' _ => by simp⟩
      simp only [replaceFirstAux, hpre, if_true, List.nil_append]
      rw [← ht, List.drop_left]
    · have hpre' : pat.isPrefixOf (c :: cs) = false := by
        cases hx : pat.isPrefixOf (c :: cs) with
        | true => exact absurd hx hpre
        | false => rfl
      have hrest : pat <:+: cs := by
        rcases occurrence_cons_elim h with hp | hi
        · exact absurd (List.isPrefixOf_iff_prefix.mpr hp) hpre
        · exact hi
      obtain ⟨p, q, hs, hrepl, hmin⟩ := ih hrest
      refine ⟨c :: p, q, by simp [hs], ?_, ?_⟩
      · simp only [replaceFirstAux, hpre', Bool.false_eq_true, if_false]
        rw [hrepl]
        rfl
      · intro p' q' heq
        cases p' with
        | nil =>
          exfalso
          have : pat <+: c :: cs := ⟨q', by simpa using heq.symm⟩
          exact hpre (List.isPrefixOf_iff_prefix.mpr this)
        | cons a p'' =>
          have heq' : cs = p'' ++ pat ++ q' := by
            have := heq
            simp only [List.cons_append, List.append_assoc] at this ⊢
            exact ((List.cons.injEq _ _ _ _).mp this).2
          have := hmin p'' q' (by simpa [List.append_assoc] using heq')
          simpa using this

theorem jsReplace_of_not_contains (s : String) (rep : String)
    (h : ¬ (("0.3" : String).data <:+: s.data)) : jsReplace s "0.3" rep = s := by
  unfold jsReplace
  rw [replaceFirstAux_no_occurrence _ _ _ h]

theorem jsFieldD_of_ok {v x : JsValue} {k : String} (h : jsField v k = .ok x) :
    jsFieldD v k = x := by
  cases v <;> simp [jsField] at h <;> exact h

theorem itemHtml_isOk (item : JsValue) (index : Nat) :
    (itemHtml item index).isOk = propAccessOk item := by
  cases item <;> rfl

theorem sequenceExcept_cons_isOk (x : Except String α) (xs : List (Except String α)) :
    (sequenceExcept (x :: xs)).isOk = (x.isOk && (sequenceExcept xs).isOk) := by
  cases x with
  | error e => rfl
  | ok s => cases h : sequenceExcept xs <;> simp [sequenceExcept, h, Except.isOk, Except.toBool]

theorem sequenceExcept_ok_length : ∀ (l : List (Except String α)) (xs : List α), sequenceExcept l = .ok xs → xs.length = l.length := by
  intro l
  induction l with
  | nil =>
    intro xs h
    simp only [sequenceExcept] at h
    cases h
    rfl
  | cons x rest ih =>
    intro xs h
    cases x with
    | error e => simp [sequenceExcept] at h
    | ok s =>
      cases hr : sequenceExcept rest with
      | error e => rw [sequenceExcept, hr] at h; cases h
      | ok ss =>
        rw [sequenceExcept, hr] at h
        cases h
        simp [ih ss hr]

theorem sequence_mapWithIndexAux_isOk : ∀ (l : List JsValue) (k : Nat), (sequenceExcept (mapWithIndexAux itemHtml k l)).isOk = l.all propAccessOk := by
  intro l
  induction l with
  | nil => intro k; rfl
  | cons a as ih =>
    intro k
    rw [show mapWithIndexAux itemHtml k (a :: as) = itemHtml a k :: mapWithIndexAux itemHtml (k+1) as from rfl,
      sequenceExcept_cons_isOk, itemHtml_isOk, ih (k+1), List.all_cons]

theorem sequence_tickerRowItems_isOk (elems : List JsValue) :
    (sequenceExcept (tickerRowItems elems)).isOk = elems.all propAccessOk := by
  unfold tickerRowItems mapWithIndex
  rw [sequence_mapWithIndexAux_isOk]
  simp [List.all_append]

theorem createTickerRowContent_isOk (v : JsValue) :
    (createTickerRowContent v).isOk = renderableLogos v := by
  cases v with
  | arr elems =>
    show (match sequenceExcept (tickerRowItems elems) with
      | .error e => Except.error e
      | .ok htmls => Except.ok (String.join htmls)).isOk = elems.all propAccessOk
    rw [← sequence_tickerRowItems_isOk elems]
    cases sequenceExcept (tickerRowItems elems) <;> rfl
  | str str =>
    show (match sequenceExcept (tickerRowItems (str.data.map (fun c => .str (String.mk [c])))) with
      | .error e => Except.error e
      | .ok htmls => Except.ok (String.join htmls)).isOk = true
    have hall : (sequenceExcept (tickerRowItems (str.data.map (fun c => JsValue.str (String.mk [c]))))).isOk = true := by
      rw [sequence_tickerRowItems_isOk]
      simp [List.all_eq_true, propAccessOk]
    cases hs : sequenceExcept (tickerRowItems (str.data.map (fun c => JsValue.str (String.mk [c])))) with
    | error e => rw [hs] at hall; simp [Except.isOk, Except.toBool] at hall
    | ok htmls => rfl
  | undefined => rfl
  | null => rfl
  | bool b => rfl
  | num q => rfl
  | obj fields => rfl

theorem renderOutput_isOk (cfg : TickerConfig) :
    (renderOutput cfg).isOk = renderableLogos cfg.logos := by
  unfold renderOutput
  rw [← createTickerRowContent_isOk cfg.logos]
  cases createTickerRowContent cfg.logos <;> rfl

theorem applyAttribute_variant (cfg : TickerConfig) (v : String) :
    applyAttribute cfg "variant" v = (cfg, []) := rfl

theorem applyAttribute_dataJson (cfg : TickerConfig) (v : String) :
    applyAttribute cfg "data-json" v = processDataJson cfg v := rfl

theorem applyAttribute_logos_of_ne (cfg : TickerConfig) (name v : String) (h : name ≠ "data-json") :
    (applyAttribute cfg name v).1.logos = cfg.logos := by
  unfold applyAttribute
  split_ifs <;> rfl

theorem attributeChangedCallback_isOk (cfg : TickerConfig) (name : String) (oldValue : Option String) (newValue : String) (h : oldValue ≠ some newValue) :
    (attributeChangedCallback cfg name oldValue newValue).isOk =
      renderableLogos (applyAttribute cfg name newValue).1.logos := by
  unfold attributeChangedCallback
  rw [if_neg h, ← renderOutput_isOk]
  cases renderOutput (applyAttribute cfg name newValue).1 <;> rfl

/-- The identity keys of the rendered (triplicated) items, in order: the
key attribute `` `${item.name}-${index}` `` emitted by `itemHtml` for each
element of `[...items, ...items, ...items]`. -/
def tickerKeys (elems : List JsValue) : List String :=
  mapWithIndex itemKey (elems ++ elems ++ elems)

/-- C1: for every logo list `L` of length `N` held in the configuration,
rendering builds exactly `3 * N` item templates, the `i`-th from entry
`L[i % N]` — i.e. the rendered sequence is `L ++ L ++ L`, each copy
preserving the order of `L` — and the emitted output is the join of those
`3 * N` items in order (every logo record renders, so for logo lists the
mapper never throws and exactly `3 * N` items are emitted). -/
theorem rendered_items_triplicate (L : List JsValue) :
    createTickerRowContent (.arr L) = (sequenceExcept (tickerRowItems L)).map String.join ∧
    (tickerRowItems L).length = 3 * L.length ∧
    (∀ htmls, sequenceExcept (tickerRowItems L) = .ok htmls → htmls.length = 3 * L.length) ∧
    ∀ (i : Nat), i < 3 * L.length →
      (tickerRowItems L)[i]? = (L[i % L.length]?).map (fun e => itemHtml e i) := by
  have hlen : (tickerRowItems L).length = 3 * L.length := by
    unfold tickerRowItems
    rw [mapWithIndex_length]
    simp only [List.length_append]
    omega
  refine ⟨?_, hlen, ?_, ?_⟩
  · show (match sequenceExcept (tickerRowItems L) with
      | .error e => Except.error e
      | .ok htmls => Except.ok (String.join htmls)) = _
    cases sequenceExcept (tickerRowItems L) <;> rfl
  · intro htmls h
    rw [sequenceExcept_ok_length _ _ h, hlen]
  · intro i hi
    unfold tickerRowItems
    rw [mapWithIndex_getElem?, triple_getElem? L i hi]

theorem rendered_items_triplicate_witness :
    (tickerRowItems [JsValue.str "a", JsValue.str "b"])[3]? =
      (([JsValue.str "a", JsValue.str "b"])[3 % 2]?).map (fun e => itemHtml e 3) :=
  (rendered_items_triplicate [JsValue.str "a", JsValue.str "b"]).2.2.2 3 (by decide)

/-- C5: an attribute-change event whose old value equals its new value
(`oldValue === newValue`, raw string comparison) is a no-op for every
observed attribute: the configuration snapshot is returned unchanged,
nothing is logged, and no rebuild of the visual subtree occurs (the
rendered-output component is `none`). -/
theorem unchanged_attribute_noop (cfg : TickerConfig) (name : String) (oldValue : Option String) (newValue : String)
    (h : oldValue = some newValue) :
    attributeChangedCallback cfg name oldValue newValue = .ok (cfg, [], none) := by
  unfold attributeChangedCallback
  rw [if_pos h]

theorem unchanged_attribute_noop_witness :
    attributeChangedCallback initialConfig "accent" (some "red") "red" = .ok (initialConfig, [], none) :=
  unchanged_attribute_noop initialConfig "accent" (some "red") "red" rfl

/-- C10: a processed change of the observed `variant` attribute (old value
differing from new) leaves every field of the configuration snapshot
unchanged — the switch has no `variant` case — yet still triggers a full
rebuild whose output is `renderOutput cfg`, the render of the very same
configuration the replaced subtree was rendered from (rendering is a pure
function of the configuration, so the new subtree is identical to the one
it replaces). -/
theorem variant_change_rebuilds_identically (cfg : TickerConfig) (oldValue : Option String) (newValue : String)
    (h : oldValue ≠ some newValue) :
    attributeChangedCallback cfg "variant" oldValue newValue =
      (renderOutput cfg).map (fun html => (cfg, [], some html)) := by
  unfold attributeChangedCallback
  rw [if_neg h]
  have hstep : applyAttribute cfg "variant" newValue = (cfg, []) := applyAttribute_variant cfg newValue
  rw [hstep]
  cases renderOutput cfg <;> rfl

theorem variant_change_rebuilds_identically_witness :
    attributeChangedCallback initialConfig "variant" none "glow" =
      (renderOutput initialConfig).map (fun html => (initialConfig, [], some html)) :=
  variant_change_rebuilds_identically initialConfig none "glow" (by simp)

/-- C2 (amended): processing an attribute change completes without an
exception for every observed attribute other than `data-json`, as long as
the currently stored logos value renders (as it does in every state
reachable without a bad `data-json`); for `data-json` it completes iff the
value is malformed JSON (the thrown parse error is caught and the fallback
substituted) or parses to a renderable value — an array or string none of
whose spread elements is `null` or `undefined`.  A `data-json` value
parsing to a JSON number, boolean, `null` or object throws a `TypeError`
at the array spread; one parsing to an array with a `null` element (e.g.
`"[null]"`) throws a `TypeError` at the first property access
(`item.needsGlow`, line 227) — in both cases the exception escapes the
component boundary during the re-render. -/
theorem attribute_processing_throws_iff (cfg : TickerConfig) (name : String) (oldValue : Option String) (newValue : String)
    (hlogos : renderableLogos cfg.logos = true) :
    (attributeChangedCallback cfg name oldValue newValue).isOk = true ↔
      (oldValue = some newValue ∨ name ≠ "data-json" ∨ dataJsonSafe newValue = true) := by
  by_cases hold : oldValue = some newValue
  · unfold attributeChangedCallback
    rw [if_pos hold]
    simp [hold, Except.isOk, Except.toBool]
  · rw [attributeChangedCallback_isOk cfg name oldValue newValue hold]
    by_cases hname : name = "data-json"
    · subst hname
      rw [applyAttribute_dataJson]
      unfold processDataJson dataJsonSafe
      cases hp : jsonParse newValue with
      | ok v => simp [hold, hp]
      | error e =>
        have hdef : renderableLogos getDefaultLogos = true := by decide
        simp [hold, hp, hdef]
    · rw [applyAttribute_logos_of_ne cfg name newValue hname, hlogos]
      simp [hname]

theorem attribute_processing_throws_iff_witness :
    (attributeChangedCallback initialConfig "accent" none "red").isOk = true ↔
      (none = some "red" ∨ "accent" ≠ "data-json" ∨ dataJsonSafe "red" = true) :=
  attribute_processing_throws_iff initialConfig "accent" none "red" rfl

set_option maxRecDepth 8000 in
/-- C2 (counterexample): `data-json` is observed, and both `"42"` and
`"[null]"` are string values for it on which processing does not complete:
the stored value `42` throws a `TypeError` at the spread in
`createTickerRowContent`, and the stored array `[null]` spreads fine but
throws a `TypeError` at the first property access of its element — both
escape the callback, refuting "no operation throws past the component
boundary" and "the component always renders something". -/
theorem attribute_processing_throws_counterexample :
    "data-json" ∈ observedAttributes ∧
    (attributeChangedCallback initialConfig "data-json" none "42").isOk = false ∧
    jsonParse "[null]" = .ok (.arr [.null]) ∧
    (attributeChangedCallback initialConfig "data-json" none "[null]").isOk = false := by
  refine ⟨by decide, by with_unfolding_all rfl, by with_unfolding_all rfl, by with_unfolding_all rfl⟩

/-- C3 (amended): the fallback-and-diagnostic path of the `data-json` case
is taken exactly when `JSON.parse` throws (malformed JSON): then the logo
list becomes the built-in fallback set in its entirety and the diagnostic
is logged.  When the string is well-formed JSON — of any shape, LogoEntry
records or not — the parsed value is stored wholesale as the logo list,
with no diagnostic and no fallback. -/
theorem dataJson_fallback_on_parse_error (cfg : TickerConfig) (s : String) :
    (∀ e, jsonParse s = .error e →
      processDataJson cfg s = ({ cfg with logos := getDefaultLogos }, [invalidDataJsonMsg])) ∧
    (∀ v, jsonParse s = .ok v → processDataJson cfg s = ({ cfg with logos := v }, [])) := by
  constructor
  · intro e he
    unfold processDataJson
    rw [he]
  · intro v hv
    unfold processDataJson
    rw [hv]

set_option maxRecDepth 8000 in
theorem dataJson_fallback_on_parse_error_witness :
    processDataJson initialConfig "not json" = ({ initialConfig with logos := getDefaultLogos }, [invalidDataJsonMsg]) :=
  (dataJson_fallback_on_parse_error initialConfig "not json").1
    "SyntaxError: Unexpected token in JSON" (by with_unfolding_all rfl)

set_option maxRecDepth 8000 in
/-- C3 (counterexample): `"[1,2,3]"` is well-formed JSON that is not an
array of LogoEntry-shaped records, yet the component neither logs a
diagnostic nor substitutes the fallback set: it stores `[1, 2, 3]` as the
logo list (which is not the fallback set — it has 3 elements, not 23). -/
theorem dataJson_wrong_shape_counterexample :
    jsonParse "[1,2,3]" = .ok (.arr [.num 1, .num 2, .num 3]) ∧
    isLogoEntryArray (.arr [.num 1, .num 2, .num 3]) = false ∧
    processDataJson initialConfig "[1,2,3]" =
      ({ initialConfig with logos := .arr [.num 1, .num 2, .num 3] }, []) ∧
    (JsValue.arr [.num 1, .num 2, .num 3]) ≠ getDefaultLogos := by
  refine ⟨by with_unfolding_all rfl, rfl, by with_unfolding_all rfl, ?_⟩
  intro hcon
  exact absurd (congrArg jsArrLength hcon) (by decide)

/-- C4 (amended): the effective loop duration set by the `speed` case is
the parsed value whenever `parseFloat` yields a nonzero number — including
negative numbers, which pass through because JavaScript `||` only tests
falsiness — and defaults to 90 exactly when `parseFloat` yields `NaN` or
zero. -/
theorem speed_fallback_on_falsy (s : String) :
    (parseFloat s = none → effectiveSpeed s = 90) ∧
    (parseFloat s = some 0 → effectiveSpeed s = 90) ∧
    (∀ v, parseFloat s = some v → v ≠ 0 → effectiveSpeed s = v) := by
  refine ⟨?_, ?_, ?_⟩
  · intro h
    unfold effectiveSpeed jsOr
    rw [h]
  · intro h
    unfold effectiveSpeed jsOr
    rw [h]
    simp
  · intro v hv hnz
    unfold effectiveSpeed jsOr
    rw [hv]
    simp [hnz]

theorem speed_fallback_on_falsy_witness : effectiveSpeed "0" = 90 :=
  (speed_fallback_on_falsy "0").2.1 (by with_unfolding_all rfl)

/-- C4 (counterexample): `speed="-5"` parses to the negative number `-5`,
which is non-positive, yet the effective loop duration becomes `-5`, not
the default 90 — refuting "resolves to the default 90 in every other case
(... non-positive result)". -/
theorem speed_negative_counterexample :
    parseFloat "-5" = some (-5) ∧ ((-5 : Rat) < 0) ∧
    effectiveSpeed "-5" = -5 ∧ effectiveSpeed "-5" ≠ 90 := by
  have hval : effectiveSpeed "-5" = -5 := by with_unfolding_all rfl
  refine ⟨by with_unfolding_all rfl, by norm_num, hval, ?_⟩
  rw [hval]
  norm_num

/-- C6 (amended): an entry with `scale: 1.5` gets the inline transform with
scale factor 1.5; an entry with glow (code field `needsGlow`, the spec's
`glow`) set to `true` gets the filter with exactly two drop-shadow terms;
an entry lacking both fields gets neither fragment.  However the fragments
are omitted precisely when the fields are falsy: an entry carrying the
default scale explicitly (`scale: 1`) still emits `transform: scale(1);`. -/
theorem item_style_fragments (item : JsValue) :
    (jsField item "scale" = .ok (.num 1.5) → scaleStyle item = "transform: scale(1.5);") ∧
    (jsField item "needsGlow" = .ok (.bool true) →
      glowStyle item = "filter: drop-shadow(0 0 6px rgba(255,255,255,0.7)) drop-shadow(0 0 12px rgba(255,255,255,0.3));") ∧
    (jsField item "scale" = .ok .undefined → scaleStyle item = "") ∧
    (jsField item "needsGlow" = .ok .undefined → glowStyle item = "") ∧
    (jsField item "scale" = .ok (.num 1) → scaleStyle item = "transform: scale(1);") := by
  refine ⟨?_, ?_, ?_, ?_, ?_⟩
  · intro h
    unfold scaleStyle
    rw [jsFieldD_of_ok h]
    with_unfolding_all rfl
  · intro h
    unfold glowStyle
    rw [jsFieldD_of_ok h]
    rfl
  · intro h
    unfold scaleStyle
    rw [jsFieldD_of_ok h]
    rfl
  · intro h
    unfold glowStyle
    rw [jsFieldD_of_ok h]
    rfl
  · intro h
    unfold scaleStyle
    rw [jsFieldD_of_ok h]
    with_unfolding_all rfl

theorem item_style_fragments_witness :
    scaleStyle (.obj [("name", .str "A"), ("logo", .str "x.png"), ("scale", .num 1.5)]) =
      "transform: scale(1.5);" :=
  (item_style_fragments (.obj [("name", .str "A"), ("logo", .str "x.png"), ("scale", .num 1.5)])).1 rfl

/-- C6 (counterexample): an entry whose `scale` is explicitly the default
`1` still gets a transform fragment — `transform: scale(1);` is emitted,
not omitted — refuting "if the entry ... (or scale is the default) neither
the transform fragment nor the filter fragment appears". -/
theorem item_style_default_scale_counterexample :
    jsField (.obj [("name", .str "A"), ("logo", .str "x.png"), ("scale", .num 1)]) "scale" = .ok (.num 1) ∧
    scaleStyle (.obj [("name", .str "A"), ("logo", .str "x.png"), ("scale", .num 1)]) = "transform: scale(1);" ∧
    scaleStyle (.obj [("name", .str "A"), ("logo", .str "x.png"), ("scale", .num 1)]) ≠ "" := by
  have hval : scaleStyle (.obj [("name", .str "A"), ("logo", .str "x.png"), ("scale", .num 1)]) = "transform: scale(1);" := by
    with_unfolding_all rfl
  refine ⟨rfl, hval, ?_⟩
  rw [hval]
  decide

/-- C7: for every accentColor string (stored unvalidated), the container
background of `getStyles` is the two-stop vertical gradient whose first
stop is accentColor verbatim and whose second stop is accentColor with the
first occurrence of the token "0.3" textually replaced by "0.1"; when
accentColor does not contain "0.3" the second stop is accentColor
unchanged. -/
theorem accent_gradient_stops (accent : String) :
    accentGradient accent =
      "linear-gradient(180deg, " ++ accent ++ " 0%, " ++ jsReplace accent "0.3" "0.1" ++ " 100%)" ∧
    (¬ (("0.3" : String).data <:+: accent.data) → jsReplace accent "0.3" "0.1" = accent) ∧
    ((("0.3" : String).data <:+: accent.data) →
      ∃ p q, accent.data = p ++ ("0.3" : String).data ++ q ∧
        (jsReplace accent "0.3" "0.1").data = p ++ ("0.1" : String).data ++ q ∧
        ∀ p' q', accent.data = p' ++ ("0.3" : String).data ++ q' → p.length ≤ p'.length) := by
  refine ⟨rfl, fun h => jsReplace_of_not_contains accent "0.1" h, fun h => ?_⟩
  obtain ⟨p, q, hs, hr, hm⟩ := replaceFirstAux_first_occ ("0.3" : String).data ("0.1" : String).data accent.data h
  exact ⟨p, q, hs, hr, hm⟩

theorem accent_gradient_stops_witness :
    jsReplace "red" "0.3" "0.1" = "red" :=
  (accent_gradient_stops "red").2.1 (by decide)

/-- C8: the `i`-th rendered item's identity key is its entry's name
concatenated with "-" and its position index `i` in the triplicated list,
and any two keys at distinct positions differ — the decimal index after
the final hyphen pins the position, so even duplicate names across the
three copies remain distinguishable. -/
theorem rendered_keys_distinct (L : List JsValue) (i j : Nat)
    (hi : i < 3 * L.length) (hj : j < 3 * L.length) (hij : i ≠ j) :
    (tickerKeys L)[i]? = (L[i % L.length]?).map (fun e => itemKey e i) ∧
    (∀ a b : JsValue, itemKey a i ≠ itemKey b j) ∧
    (tickerKeys L)[i]? ≠ (tickerKeys L)[j]? := by
  have hN : 0 < L.length := by omega
  have h1 : (tickerKeys L)[i]? = (L[i % L.length]?).map (fun e => itemKey e i) := by
    unfold tickerKeys
    rw [mapWithIndex_getElem?, triple_getElem? L i hi]
  have h2 : (tickerKeys L)[j]? = (L[j % L.length]?).map (fun e => itemKey e j) := by
    unfold tickerKeys
    rw [mapWithIndex_getElem?, triple_getElem? L j hj]
  refine ⟨h1, fun a b h => hij (itemKey_inj_index h), ?_⟩
  rw [h1, h2]
  have hib : i % L.length < L.length := Nat.mod_lt i hN
  have hjb : j % L.length < L.length := Nat.mod_lt j hN
  rw [List.getElem?_eq_getElem hib, List.getElem?_eq_getElem hjb]
  intro hcon
  simp only [Option.map_some'] at hcon
  exact hij (itemKey_inj_index (Option.some.inj hcon))

theorem rendered_keys_distinct_witness :
    (tickerKeys [JsValue.obj [("name", .str "MIT")], JsValue.obj [("name", .str "MIT")]])[0]? ≠
      (tickerKeys [JsValue.obj [("name", .str "MIT")], JsValue.obj [("name", .str "MIT")]])[1]? :=
  (rendered_keys_distinct [JsValue.obj [("name", .str "MIT")], JsValue.obj [("name", .str "MIT")]]
    0 1 (by decide) (by decide) (by decide)).2.2

set_option maxRecDepth 8000 in
/-- C9: the built-in fallback logo set has exactly 23 entries, each
satisfying the LogoEntry invariant (nonempty name, nonempty image
reference, and wherever a scale is present it is a positive — and, being a
rational literal, finite — number), its triplicated rendering yields 69
items, and a malformed `data-json` substitutes exactly this set while
emitting the diagnostic. -/
theorem default_logo_set_invariants :
    getDefaultLogos = .arr defaultLogoList ∧
    defaultLogoList.length = 23 ∧
    defaultLogoList.all logoEntryOk = true ∧
    (tickerRowItems defaultLogoList).length = 69 ∧
    processDataJson initialConfig "\x7bnot valid" =
      ({ initialConfig with logos := getDefaultLogos }, [invalidDataJsonMsg]) := by
  refine ⟨rfl, by decide, by with_unfolding_all rfl, ?_, by with_unfolding_all rfl⟩
  unfold tickerRowItems
  rw [mapWithIndex_length]
  decide
